import Mathlib

/-!
Verification development for the deven event-listing / booking application.

Strings are modelled as `List Char` (the `data` of a Lean `String`), and the
JavaScript string operations used by the source are given executable shallow
embeddings.  Each definition carries a comment pointing at the source
construct it embeds.
-/

/-- Model of the character class recognised by the JavaScript regex `\s`
(and by `String.prototype.trim`): space, tab, line terminators, and the
Unicode space separators listed in ECMA-262. -/
def isWs (c : Char) : Bool :=
  decide (c.toNat = 32 ∨ c.toNat = 9 ∨ c.toNat = 10 ∨ c.toNat = 11 ∨
    c.toNat = 12 ∨ c.toNat = 13 ∨ c.toNat = 160 ∨ c.toNat = 0x1680 ∨
    (0x2000 ≤ c.toNat ∧ c.toNat ≤ 0x200a) ∨ c.toNat = 0x2028 ∨
    c.toNat = 0x2029 ∨ c.toNat = 0x202f ∨ c.toNat = 0x205f ∨
    c.toNat = 0x3000 ∨ c.toNat = 0xfeff)

/-- ASCII lowercase letter, the class `[a-z]`. -/
def isLowerAZ (c : Char) : Bool :=
  decide (97 ≤ c.toNat ∧ c.toNat ≤ 122)

/-- ASCII uppercase letter, the class `[A-Z]`. -/
def isUpperAZ (c : Char) : Bool :=
  decide (65 ≤ c.toNat ∧ c.toNat ≤ 90)

/-- ASCII digit, the regex class `\d` / `[0-9]`. -/
def isDigitC (c : Char) : Bool :=
  decide (48 ≤ c.toNat ∧ c.toNat ≤ 57)

/-- The hyphen character test used throughout the slug pipeline. -/
def isH (c : Char) : Bool :=
  decide (c = '-')

/-- Character-wise model of `String.prototype.toLowerCase` (Unicode
Default Case Conversion), giving the lowercase string of one character.
It is exact on ASCII and on the only Unicode case mappings whose output
reaches the ASCII range: U+212A KELVIN SIGN lowercases to the ASCII
letter k, and U+0130 LATIN CAPITAL LETTER I WITH DOT ABOVE lowercases to
i followed by the combining dot U+0307.  Every other lowercase mapping
sends a character outside the class `[a-z0-9\s-]` kept by the slug
filter to characters again outside that class, so those mappings are
modelled as the identity; `generateSlug` is unaffected by this. -/
def jsToLower (c : Char) : List Char :=
  if isUpperAZ c then [Char.ofNat (c.toNat + 32)]
  else if c = '\u212A' then ['k']
  else if c = '\u0130' then ['i', '\u0307']
  else [c]

/-- Model of `String.prototype.trim`: drop `isWs` characters from both ends. -/
def trimWs (l : List Char) : List Char :=
  ((l.dropWhile isWs).reverse.dropWhile isWs).reverse

/-- The character class kept by `replace(/[^a-z0-9\s-]/g, '')` in
`generateSlug` (route.ts line 236). -/
def keepChar (c : Char) : Bool :=
  isLowerAZ c || isDigitC c || isWs c || isH c

/-- Characters that may occur in a finished slug. -/
def slugChar (c : Char) : Bool :=
  isLowerAZ c || isDigitC c || isH c

/-- Model of a global regex replace of each maximal run of characters
satisfying `p` by the single character `rep`; used in `generateSlug` for
replacing whitespace runs by a hyphen (route.ts line 237) and for
collapsing hyphen runs (route.ts line 238). -/
def squashRuns (p : Char → Bool) (rep : Char) : List Char → List Char
  | [] => []
  | c :: rest =>
    if p c then
      match rest with
      | [] => [rep]
      | d :: _ => if p d then squashRuns p rep rest else rep :: squashRuns p rep rest
    else c :: squashRuns p rep rest

/-- Drop a single leading hyphen if one is present; one half of the model of
`replace(/^-|-$/g, '')` in `generateSlug` (route.ts line 239).  The global
regex removes at most one hyphen anchored at the start and at most one
anchored at the end. -/
def dropLeadHyphen (l : List Char) : List Char :=
  match l with
  | [] => []
  | c :: rest => if c = '-' then rest else c :: rest

/-- Model of `replace(/^-|-$/g, '')` (route.ts line 239): remove one leading
and one trailing hyphen. -/
def stripEdgeHyphens (l : List Char) : List Char :=
  (dropLeadHyphen ((dropLeadHyphen l).reverse)).reverse

/-- Embedding of `generateSlug` (route.ts lines 232 to 240) on `List Char`:
lowercase, trim, delete characters outside `[a-z0-9\s-]`, replace whitespace
runs with a hyphen, collapse hyphen runs, remove a leading and trailing
hyphen. -/
def generateSlugL (l : List Char) : List Char :=
  stripEdgeHyphens (squashRuns isH '-'
    (squashRuns isWs '-' ((trimWs (l.flatMap jsToLower)).filter keepChar)))

/-- The source function `generateSlug : string -> string`. -/
def generateSlug (s : String) : String :=
  String.mk (generateSlugL s.toList)

/-- The slug pipeline as the specification section 4.1 words it, differing
from the source only in the final step: the spec says to strip all leading
and trailing hyphens, where the source regex removes at most one of each. -/
def generateSlugSpecL (l : List Char) : List Char :=
  (((squashRuns isH '-'
      (squashRuns isWs '-' ((trimWs (l.flatMap jsToLower)).filter keepChar))).dropWhile
        isH).reverse.dropWhile isH).reverse

deriving instance DecidableEq for Except

/-- The AM or PM designator captured by group 4 of the time regex. -/
inductive Period
  | AM
  | PM
deriving DecidableEq, Repr

/-- The data extracted by a successful match of the `normalizeTime` regex
(route.ts line 267): the hour value `parseInt(match[1])`, the two minute
digit characters of `match[2]`, and the optional designator `match[4]`. -/
structure TimeMatch where
  hours : Nat
  minTens : Char
  minOnes : Char
  period : Option Period
deriving DecidableEq, Repr

/-- Numeric value of an ASCII digit character, as `parseInt` sees it. -/
def digitVal (c : Char) : Nat := c.toNat - 48

/-- Match the optional tail of the time regex, the group
with zero or more whitespace characters followed by a case-insensitive
AM or PM; `none` means the whole regex fails, `some none` means the
optional group is absent. -/
def matchPeriodTail (l : List Char) : Option (Option Period) :=
  if l = [] then some none
  else
    match l.dropWhile isWs with
    | [a, m] =>
      if (a = 'A' ∨ a = 'a') ∧ (m = 'M' ∨ m = 'm') then some (some Period.AM)
      else if (a = 'P' ∨ a = 'p') ∧ (m = 'M' ∨ m = 'm') then some (some Period.PM)
      else none
    | _ => none

/-- The two-digit-hour alternative of the time regex: two digits, a colon,
two minute digits, then the optional designator tail. -/
def matchTime2 (l : List Char) : Option TimeMatch :=
  match l with
  | d1 :: d2 :: c :: m1 :: m2 :: rest =>
    if c = ':' ∧ isDigitC d1 ∧ isDigitC d2 ∧ isDigitC m1 ∧ isDigitC m2 then
      (matchPeriodTail rest).map
        (fun p => ⟨digitVal d1 * 10 + digitVal d2, m1, m2, p⟩)
    else none
  | _ => none

/-- The one-digit-hour alternative of the time regex. -/
def matchTime1 (l : List Char) : Option TimeMatch :=
  match l with
  | d1 :: c :: m1 :: m2 :: rest =>
    if c = ':' ∧ isDigitC d1 ∧ isDigitC m1 ∧ isDigitC m2 then
      (matchPeriodTail rest).map (fun p => ⟨digitVal d1, m1, m2, p⟩)
    else none
  | _ => none

/-- Model of matching the anchored regex of `normalizeTime` (route.ts line
267) against a whole string: the greedy one-or-two-digit hour group tries
the two-digit form first, then backtracks to the one-digit form. -/
def matchTime (l : List Char) : Option TimeMatch :=
  (matchTime2 l).orElse (fun _ => matchTime1 l)

/-- The two distinct errors thrown by `normalizeTime`: the message
beginning with a format complaint (route.ts line 271) and the
out-of-range value complaint (route.ts line 285). -/
inductive TimeError
  | InvalidTimeFormat
  | InvalidTimeValues
deriving DecidableEq, Repr

/-- The 12-hour to 24-hour conversion of `normalizeTime` (route.ts lines
278 to 282): with a PM designator an hour other than 12 gains 12, with an
AM designator the hour 12 becomes 0, and without a designator the hour is
unchanged. -/
def to24Hour (h : Nat) (p : Option Period) : Nat :=
  match p with
  | some Period.PM => if h ≠ 12 then h + 12 else h
  | some Period.AM => if h = 12 then 0 else h
  | none => h

/-- Model of `padStart(len, c)` for JavaScript strings. -/
def padStartC (len : Nat) (c : Char) (l : List Char) : List Char :=
  List.replicate (len - l.length) c ++ l

/-- Model of `Number.prototype.toString` for a natural number: its decimal
digits. -/
def jsNatToString (n : Nat) : List Char := Nat.toDigits 10 n

/-- Embedding of `normalizeTime` (route.ts lines 265 to 289) on
`List Char`.  The source also compares `hours` and `parseInt(minutes)`
against 0, which is vacuous here because both are parsed from digit
characters and are natural numbers. -/
def normalizeTimeL (l : List Char) : Except TimeError (List Char) :=
  match matchTime (trimWs l) with
  | none => Except.error TimeError.InvalidTimeFormat
  | some m =>
    let hours := to24Hour m.hours m.period
    if hours > 23 ∨ digitVal m.minTens * 10 + digitVal m.minOnes > 59 then
      Except.error TimeError.InvalidTimeValues
    else
      Except.ok (padStartC 2 '0' (jsNatToString hours) ++ ':' :: m.minTens :: [m.minOnes])

/-- The source function `normalizeTime : string -> string` (throwing is
modelled by `Except.error`). -/
def normalizeTime (s : String) : Except TimeError String :=
  (normalizeTimeL s.toList).map String.mk

/-- The single error thrown by `normalizeDate` (route.ts line 252). -/
inductive DateError
  | InvalidDateFormat
deriving DecidableEq, Repr

/-- Decomposition of a day count relative to 1970-01-01 into a proleptic
Gregorian UTC calendar date, the arithmetic behind the year, month and day
fields of ECMA-262 `Date.prototype.toISOString` (the standard
civil-from-days algorithm). -/
def civilFromDays (z0 : Int) : Int × Nat × Nat :=
  let z := z0 + 719468
  let era : Int := z.fdiv 146097
  let doe : Nat := (z - era * 146097).toNat
  let yoe : Nat := (doe - doe / 1460 + doe / 36524 - doe / 146096) / 365
  let y : Int := (yoe : Int) + era * 400
  let doy : Nat := doe - (365 * yoe + yoe / 4 - yoe / 100)
  let mp : Nat := (5 * doy + 2) / 153
  let d : Nat := doy - (153 * mp + 2) / 5 + 1
  let m : Nat := if mp < 10 then mp + 3 else mp - 9
  (if m ≤ 2 then y + 1 else y, m, d)

/-- The year field of `toISOString`: four zero-padded digits for years 0 to
9999, otherwise the expanded form with a sign and six digits (ECMA-262
DateTimeStringFormat). -/
def isoYear (y : Int) : List Char :=
  if 0 ≤ y ∧ y ≤ 9999 then padStartC 4 '0' (jsNatToString y.toNat)
  else if y < 0 then '-' :: padStartC 6 '0' (jsNatToString (-y).toNat)
  else '+' :: padStartC 6 '0' (jsNatToString y.toNat)

/-- Milliseconds per day. -/
def msPerDay : Int := 86400000

/-- The date portion (before the letter T) of
`Date.prototype.toISOString` applied to a timestamp of `t` milliseconds
since the epoch. -/
def isoDateOfMs (t : Int) : List Char :=
  match civilFromDays (t.fdiv msPerDay) with
  | (y, m, d) =>
    isoYear y ++ '-' :: padStartC 2 '0' (jsNatToString m) ++
      '-' :: padStartC 2 '0' (jsNatToString d)

/-- The time portion (after the letter T) of `Date.prototype.toISOString`. -/
def isoTimeOfMs (t : Int) : List Char :=
  let ms : Nat := (t.fmod msPerDay).toNat
  padStartC 2 '0' (jsNatToString (ms / 3600000)) ++
    ':' :: padStartC 2 '0' (jsNatToString (ms / 60000 % 60)) ++
    ':' :: padStartC 2 '0' (jsNatToString (ms / 1000 % 60)) ++
    '.' :: padStartC 3 '0' (jsNatToString (ms % 1000)) ++ ['Z']

/-- Model of `Date.prototype.toISOString` on a millisecond timestamp. -/
def toISOString (t : Int) : List Char :=
  isoDateOfMs t ++ 'T' :: isoTimeOfMs t

/-- Embedding of `normalizeDate` (route.ts lines 249 to 255).  The host
date parser invoked by `new Date(dateString)` is an external collaborator;
it is passed in as `hostParse`, returning `none` exactly when
`isNaN(date.getTime())` holds, and otherwise the parsed millisecond
timestamp.  `split` on the letter T followed by taking element 0 is the
prefix before the first T. -/
def normalizeDateL (hostParse : List Char → Option Int) (l : List Char) :
    Except DateError (List Char) :=
  match hostParse l with
  | none => Except.error DateError.InvalidDateFormat
  | some t => Except.ok ((toISOString t).takeWhile (fun c => !(c = 'T' : Bool)))

/-- A value stored in a multipart form entry: a binary file part or a
plain string field. -/
inductive FormVal
  | file (bytes : List Nat)
  | str (s : String)
deriving DecidableEq, Repr

/-- The entry list of a parsed `FormData` object. -/
def FormDataM : Type := List (String × FormVal)

/-- Model of `FormData.prototype.get`: the value of the first entry with
the given key, or null (`none`). -/
def fdGet (fd : FormDataM) (k : String) : Option FormVal :=
  match fd with
  | [] => none
  | (k2, v) :: rest => if k2 = k then some v else fdGet rest k

/-- Set a key on a plain object: overwrite the value at its existing
position, or append the key. -/
def setKey (k : String) (v : FormVal) (o : FormDataM) : FormDataM :=
  match o with
  | [] => [(k, v)]
  | (k2, v2) :: rest =>
    if k2 = k then (k2, v) :: rest else (k2, v2) :: setKey k v rest

/-- Model of `Object.fromEntries(formData.entries())` (route.ts line 17):
a plain object where each key sits at its first occurrence and holds its
last value.  On a `FormData` entry iterable this never throws, so the
inner catch returning 400 on line 19 is unreachable. -/
def fromEntries (l : FormDataM) : FormDataM :=
  l.foldl (fun acc kv => setKey kv.1 kv.2 acc) []

/-- JavaScript truthiness of a form value, for the `!file` test on
route.ts line 27: a File object is always truthy, a string is falsy
exactly when empty. -/
def isFalsyVal (v : FormVal) : Bool :=
  match v with
  | FormVal.file _ => false
  | FormVal.str s => decide (s = "")

/-- Reading the binary payload of the image part, `file.arrayBuffer()`
followed by `Buffer.from` (route.ts lines 36 and 42).  When the truthy
image entry is a nonempty string rather than a File, the method call
throws a TypeError, which the outer catch converts to a 500. -/
def bytesOf (v : FormVal) : Except String (List Nat) :=
  match v with
  | FormVal.file bytes => Except.ok bytes
  | FormVal.str _ => Except.error ("file.arrayBuffer is not a function")

/-- A JSON value as returned by the host `JSON.parse`. -/
inductive Json
  | null
  | bool (b : Bool)
  | num (n : Int)
  | str (s : String)
  | arr (elems : List Json)
  | obj (fields : List (String × Json))

/-- The result of the Cloudinary upload callback (route.ts line 64 reads
only `secure_url`). -/
structure UploadResult where
  secure_url : String
deriving DecidableEq, Repr

/-- The record handed to `Event.create` (route.ts lines 66 to 70): the
spread of the form-entry object (whose `image` key was set to the upload
URL on line 64) with `tags` and `agenda` overwritten by their parsed
values. -/
structure EventInput where
  fields : FormDataM
  tags : Json
  agenda : Json

/-- The response bodies produced by the POST handler. -/
inductive Body
  | msg (message : String)
  | msgEvent (message : String) (event : EventInput)
  | msgError (message : String) (error : String)

/-- A `NextResponse.json` value: an HTTP status and a body. -/
structure Response where
  status : Nat
  body : Body

/-- The externally visible effects the POST handler can perform, in the
order they are recorded: the database connection, the form parse, the
awaited completion (resolution or rejection) of the Cloudinary upload,
and the attempted `Event.create` persist. -/
inductive Effect
  | connected
  | formParsed
  | uploadAwaited
  | persistAttempted
deriving DecidableEq, Repr

/-- Outcomes of the effectful collaborators the POST handler calls: the
database connection, the multipart parse of the request body, the host
`JSON.parse` (applied to the value of a possibly missing form field), the
Cloudinary upload of a buffer, and the document-store `Event.create`.
Rejection or throwing is an `Except.error` carrying the message. -/
structure PostEnv where
  connectDB : Except String Unit
  formData : Except String FormDataM
  jsonParse : Option FormVal → Except String Json
  upload : List Nat → Except String UploadResult
  create : EventInput → Except String EventInput

/-- The observable result of one POST request: the response, the event
store after the request (events created by this request are appended),
and the trace of performed effects. -/
structure PostOut where
  response : Response
  store : List EventInput
  trace : List Effect

/-- Embedding of the POST handler of `app/api/events/route.ts` (lines 8
to 81).  Each `match` on an `Except` models an `await` whose rejection is
caught by the outer catch of lines 74 to 80, which responds 500 with the
message `Event Creation Failed` and the error message. -/
def POST (env : PostEnv) (store : List EventInput) : PostOut :=
  match env.connectDB with
  | Except.error e => ⟨⟨500, Body.msgError ("Event Creation Failed") e⟩, store, []⟩
  | Except.ok _ =>
    match env.formData with
    | Except.error e =>
      ⟨⟨500, Body.msgError ("Event Creation Failed") e⟩, store, [Effect.connected]⟩
    | Except.ok fd =>
      match fdGet fd ("image") with
      | none =>
        ⟨⟨400, Body.msg ("Image file is required")⟩, store,
          [Effect.connected, Effect.formParsed]⟩
      | some fv =>
        if isFalsyVal fv then
          ⟨⟨400, Body.msg ("Image file is required")⟩, store,
            [Effect.connected, Effect.formParsed]⟩
        else
          match env.jsonParse (fdGet fd ("tags")) with
          | Except.error e =>
            ⟨⟨500, Body.msgError ("Event Creation Failed") e⟩, store,
              [Effect.connected, Effect.formParsed]⟩
          | Except.ok tags =>
            match env.jsonParse (fdGet fd ("agenda")) with
            | Except.error e =>
              ⟨⟨500, Body.msgError ("Event Creation Failed") e⟩, store,
                [Effect.connected, Effect.formParsed]⟩
            | Except.ok agenda =>
              match bytesOf fv with
              | Except.error e =>
                ⟨⟨500, Body.msgError ("Event Creation Failed") e⟩, store,
                  [Effect.connected, Effect.formParsed]⟩
              | Except.ok buffer =>
                match env.upload buffer with
                | Except.error e =>
                  ⟨⟨500, Body.msgError ("Event Creation Failed") e⟩, store,
                    [Effect.connected, Effect.formParsed, Effect.uploadAwaited]⟩
                | Except.ok uploadResult =>
                  match env.create
                      ⟨setKey ("image") (FormVal.str uploadResult.secure_url)
                        (fromEntries fd), tags, agenda⟩ with
                  | Except.error e =>
                    ⟨⟨500, Body.msgError ("Event Creation Failed") e⟩, store,
                      [Effect.connected, Effect.formParsed, Effect.uploadAwaited,
                        Effect.persistAttempted]⟩
                  | Except.ok createdEvent =>
                    ⟨⟨201, Body.msgEvent ("Event Created Successfully") createdEvent⟩,
                      store ++ [createdEvent],
                      [Effect.connected, Effect.formParsed, Effect.uploadAwaited,
                        Effect.persistAttempted]⟩

/-- The mongoose field options of `EventSchema.slug` (event model lines
125 to 130): `unique`, `lowercase` and `trim` are set, and no `required`
option is given, so it defaults to false. -/
structure SlugFieldOptions where
  unique : Bool
  lowercase : Bool
  trim : Bool
  required : Bool
deriving DecidableEq, Repr

/-- The options of the `slug` field in the Event schema. -/
def eventSlugOptions : SlugFieldOptions :=
  ⟨true, true, true, false⟩

/-- A Booking document: the referenced event id (an ObjectId rendered as a
string) and the booker email. -/
structure BookingDoc where
  eventId : String
  email : String
deriving DecidableEq, Repr

/-- The mongoose save-time state of a Booking document: the document, the
`isNew` flag, and the list of modified paths consulted by `isModified`. -/
structure BookingState where
  doc : BookingDoc
  isNew : Bool
  modifiedPaths : List String
deriving DecidableEq, Repr

/-- Model of `Event.findById(id).select().lean()` over a store holding
the set of existing event ids. -/
def findEventById (eventIds : List String) (id : String) : Option String :=
  if id ∈ eventIds then some id else none

/-- Embedding of the Booking pre-save hook (booking model lines 338 to
354): return early when the document is not new and `eventId` is not
modified; otherwise look up the referenced Event and throw when it is
absent. -/
def bookingPreSave (lookup : String → Option String) (b : BookingState) :
    Except String Unit :=
  if ¬b.isNew ∧ ¬("eventId") ∈ b.modifiedPaths then Except.ok ()
  else
    match lookup b.doc.eventId with
    | some _ => Except.ok ()
    | none =>
      Except.error ("Event with ID " ++ b.doc.eventId ++ " does not exist")

/-- A mongoose save of a Booking: run the pre-save hook, and only on
success insert the document into the booking store. -/
def bookingSave (eventIds : List String) (b : BookingState)
    (store : List BookingDoc) : Except String (List BookingDoc) :=
  match bookingPreSave (findEventById eventIds) b with
  | Except.error e => Except.error e
  | Except.ok _ => Except.ok (store ++ [b.doc])

/-- The arguments of the `createBooking` server action
(booking.actions.ts line 6). -/
structure CreateBookingArgs where
  eventId : String
  slug : String
  email : String
deriving DecidableEq, Repr

/-- The tagged result returned by `createBooking`: either
`{success: true, booking}` or `{success: false, error}`. -/
inductive BookingResult
  | success (booking : BookingDoc)
  | failure (error : String)
deriving DecidableEq, Repr

/-- Outcomes of the collaborators used by `createBooking`: the database
connection and `Booking.create` (validation, hooks and insert). -/
structure BookingEnv where
  connectDB : Except String Unit
  bookingCreate : CreateBookingArgs → Except String BookingDoc

/-- Model of the `lean` call on the value returned by `Booking.create`
(booking.actions.ts line 9).  `Booking.create` resolves to a mongoose
Document, and the mongoose Document API has no `lean` method (`lean`
belongs to Query), so the member call throws a TypeError. -/
def documentLean (_d : BookingDoc) : Except String BookingDoc :=
  Except.error ("booking.lean is not a function")

/-- Embedding of `createBooking` (booking.actions.ts lines 6 to 16): the
try block connects, creates, and calls `lean` on the created document;
any throw is caught and returned as the failure branch. -/
def createBooking (env : BookingEnv) (args : CreateBookingArgs) : BookingResult :=
  match env.connectDB with
  | Except.error e => BookingResult.failure e
  | Except.ok _ =>
    match env.bookingCreate args with
    | Except.error e => BookingResult.failure e
    | Except.ok doc =>
      match documentLean doc with
      | Except.error e => BookingResult.failure e
      | Except.ok b => BookingResult.success b

/-- A list of characters does not start with a hyphen. -/
def headOkB : List Char → Bool
  | [] => true
  | c :: _ => !(isH c)

/-- No two adjacent characters are both hyphens. -/
def noDH (l : List Char) : Prop :=
  List.Chain' (fun a b => isH a = false ∨ isH b = false) l

/-- A fully canonical slug: only slug characters, no double hyphen, and no
hyphen at either end. -/
def canonicalSlug (l : List Char) : Prop :=
  (∀ c ∈ l, slugChar c = true) ∧ noDH l ∧
    headOkB l = true ∧ headOkB l.reverse = true

/-- A well-formed multipart form for the concrete pipeline scenarios. -/
def fdOk : FormDataM :=
  [(("title"), FormVal.str ("Tech Conf")),
   (("image"), FormVal.file [7, 7, 7]),
   (("tags"), FormVal.str ("[\"dev\"]")),
   (("agenda"), FormVal.str ("[\"intro\"]"))]

/-- The same form without the image part. -/
def fdNoImage : FormDataM :=
  [(("title"), FormVal.str ("Tech Conf")),
   (("tags"), FormVal.str ("[\"dev\"]")),
   (("agenda"), FormVal.str ("[\"intro\"]"))]

/-- A pipeline environment in which every collaborator succeeds. -/
def envAllOk : PostEnv :=
  ⟨Except.ok (), Except.ok fdOk, fun _ => Except.ok Json.null,
    fun _ => Except.ok ⟨("https://res.example/devevent/img.png")⟩,
    fun i => Except.ok i⟩

/-- The successful environment except that the Cloudinary upload rejects. -/
def envUploadFail : PostEnv :=
  ⟨Except.ok (), Except.ok fdOk, fun _ => Except.ok Json.null,
    fun _ => Except.error ("network error"),
    fun i => Except.ok i⟩

/-- The successful environment except that the request carries no image
part. -/
def envNoImage : PostEnv :=
  ⟨Except.ok (), Except.ok fdNoImage, fun _ => Except.ok Json.null,
    fun _ => Except.ok ⟨("https://res.example/devevent/img.png")⟩,
    fun i => Except.ok i⟩

/-- The successful environment except that the host `JSON.parse` throws on
the tags field. -/
def envBadTags : PostEnv :=
  ⟨Except.ok (), Except.ok fdOk,
    fun _ => Except.error ("Unexpected token o in JSON"),
    fun _ => Except.ok ⟨("https://res.example/devevent/img.png")⟩,
    fun i => Except.ok i⟩

/-- The successful environment except that `Event.create` rejects. -/
def envCreateFail : PostEnv :=
  ⟨Except.ok (), Except.ok fdOk, fun _ => Except.ok Json.null,
    fun _ => Except.ok ⟨("https://res.example/devevent/img.png")⟩,
    fun _ => Except.error ("Event validation failed")⟩

/-- A concrete host date parser recognising exactly the string
March 5, 2024, parsed (as a UTC host does) to midnight of that day. -/
def hpMarch : List Char → Option Int :=
  fun l => if l = ("March 5, 2024").toList then some 1709596800000 else none

/-- A booking environment in which the connection and `Booking.create`
succeed. -/
def envBookingOk : BookingEnv :=
  ⟨Except.ok (), fun a => Except.ok ⟨a.eventId, a.email⟩⟩

/-- Concrete booking-action arguments. -/
def bookingArgs0 : CreateBookingArgs :=
  ⟨("665f0000000000000000000a"), ("event-slug"), ("user@example.com")⟩

/-! Character-class facts used by the slug proofs. -/

theorem isH_eq {c : Char} (h : isH c = true) : c = '-' := by
  simpa [isH] using h

theorem slugChar_cases {c : Char} (h : slugChar c = true) :
    isLowerAZ c = true ∨ isDigitC c = true ∨ isH c = true := by
  simpa [slugChar, Bool.or_eq_true, or_assoc] using h

theorem slugChar_toLower {c : Char} (h : slugChar c = true) :
    jsToLower c = [c] := by
  have h2 := slugChar_cases h
  have h3 : isUpperAZ c = false := by
    rcases h2 with h2 | h2 | h2
    · simp only [isLowerAZ, decide_eq_true_eq] at h2
      simp only [isUpperAZ, decide_eq_false_iff_not]
      omega
    · simp only [isDigitC, decide_eq_true_eq] at h2
      simp only [isUpperAZ, decide_eq_false_iff_not]
      omega
    · rw [isH_eq h2]; decide
  have h4 : ¬ c = '\u212A' := by
    intro he; subst he; exact absurd h (by decide)
  have h5 : ¬ c = '\u0130' := by
    intro he; subst he; exact absurd h (by decide)
  simp [jsToLower, h3, h4, h5]

theorem slugChar_not_ws {c : Char} (h : slugChar c = true) : isWs c = false := by
  rcases slugChar_cases h with h2 | h2 | h2
  · simp only [isLowerAZ, decide_eq_true_eq] at h2
    simp only [isWs, decide_eq_false_iff_not]
    omega
  · simp only [isDigitC, decide_eq_true_eq] at h2
    simp only [isWs, decide_eq_false_iff_not]
    omega
  · rw [isH_eq h2]; decide

theorem slugChar_keep {c : Char} (h : slugChar c = true) : keepChar c = true := by
  have h2 := slugChar_cases h
  simp only [keepChar, Bool.or_eq_true, or_assoc]
  tauto

theorem keep_not_ws_slug {c : Char} (hk : keepChar c = true)
    (hw : isWs c = false) : slugChar c = true := by
  have h2 : isLowerAZ c = true ∨ isDigitC c = true ∨ isWs c = true ∨ isH c = true := by
    simpa [keepChar, Bool.or_eq_true, or_assoc] using hk
  simp only [slugChar, Bool.or_eq_true, or_assoc]
  rcases h2 with h2 | h2 | h2 | h2
  · exact Or.inl h2
  · exact Or.inr (Or.inl h2)
  · rw [hw] at h2; exact absurd h2 (by simp)
  · exact Or.inr (Or.inr h2)

/-! Generic list lemmas for the JavaScript string operations. -/

theorem flatMap_id_of_fix (f : Char → List Char) :
    ∀ l : List Char, (∀ c ∈ l, f c = [c]) → l.flatMap f = l := by
  intro l h
  induction l with
  | nil => rfl
  | cons c rest ih =>
    rw [List.flatMap_cons, h c (List.mem_cons_self c rest),
      ih (fun d hd => h d (List.mem_cons_of_mem c hd))]
    rfl

theorem dropWhile_id_of (p : Char → Bool) :
    ∀ l : List Char, (∀ c ∈ l, p c = false) → l.dropWhile p = l := by
  intro l h
  cases l with
  | nil => rfl
  | cons c rest =>
    simp [List.dropWhile, h c (List.mem_cons_self c rest)]

theorem filter_id_of (p : Char → Bool) (l : List Char)
    (h : ∀ c ∈ l, p c = true) : l.filter p = l :=
  List.filter_eq_self.mpr h

theorem mem_trimWs (l : List Char) (c : Char) (hc : c ∈ trimWs l) : c ∈ l := by
  unfold trimWs at hc
  rw [List.mem_reverse] at hc
  have h1 := List.dropWhile_subset isWs hc
  rw [List.mem_reverse] at h1
  exact List.dropWhile_subset isWs h1

/-! Facts about `squashRuns`, stated through three unfolding equations that
leave the recursive call on the tail untouched. -/

theorem squashRuns_nil (p : Char → Bool) (rep : Char) :
    squashRuns p rep [] = [] := rfl

theorem squashRuns_one (p : Char → Bool) (rep : Char) (c : Char) :
    squashRuns p rep [c] = if p c then [rep] else [c] := rfl

theorem squashRuns_two (p : Char → Bool) (rep : Char) (a d : Char)
    (r : List Char) :
    squashRuns p rep (a :: d :: r) =
      if p a then
        (if p d then squashRuns p rep (d :: r)
         else rep :: squashRuns p rep (d :: r))
      else a :: squashRuns p rep (d :: r) := rfl

theorem squashRuns_id_of_notp (p : Char → Bool) (rep : Char) :
    ∀ l : List Char, (∀ c ∈ l, p c = false) → squashRuns p rep l = l := by
  intro l
  induction l with
  | nil => intro _; rfl
  | cons a rest ih =>
    intro h
    have ha : p a = false := h a (List.mem_cons_self a rest)
    have ih2 := ih (fun d hd => h d (List.mem_cons_of_mem a hd))
    cases rest with
    | nil => rw [squashRuns_one, ha]; simp
    | cons d r => rw [squashRuns_two, ha, ih2]; simp

theorem squashRuns_mem (p : Char → Bool) (rep : Char) :
    ∀ l : List Char, ∀ c ∈ squashRuns p rep l,
      c = rep ∨ (c ∈ l ∧ p c = false) := by
  intro l
  induction l with
  | nil => intro c hc; simp [squashRuns_nil] at hc
  | cons a rest ih =>
    intro c hc
    cases rest with
    | nil =>
      rw [squashRuns_one] at hc
      by_cases ha : p a
      · rw [ha, if_pos rfl] at hc
        simp only [List.mem_singleton] at hc
        exact Or.inl hc
      · rw [Bool.not_eq_true] at ha
        rw [ha] at hc
        simp only [Bool.false_eq_true, if_false, List.mem_singleton] at hc
        subst hc
        exact Or.inr ⟨List.mem_cons_self c [], ha⟩
    | cons d r =>
      rw [squashRuns_two] at hc
      by_cases ha : p a
      · rw [ha, if_pos rfl] at hc
        by_cases hd : p d
        · rw [hd, if_pos rfl] at hc
          rcases ih c hc with h | ⟨h1, h2⟩
          · exact Or.inl h
          · exact Or.inr ⟨List.mem_cons_of_mem a h1, h2⟩
        · rw [Bool.not_eq_true] at hd
          rw [hd] at hc
          simp only [Bool.false_eq_true, if_false, List.mem_cons] at hc
          rcases hc with h | hc
          · exact Or.inl h
          · rcases ih c (by simpa using hc) with h | ⟨h1, h2⟩
            · exact Or.inl h
            · exact Or.inr ⟨List.mem_cons_of_mem a h1, h2⟩
      · rw [Bool.not_eq_true] at ha
        rw [ha] at hc
        simp only [Bool.false_eq_true, if_false, List.mem_cons] at hc
        rcases hc with h | hc
        · subst h; exact Or.inr ⟨List.mem_cons_self c (d :: r), ha⟩
        · rcases ih c (by simpa using hc) with h | ⟨h1, h2⟩
          · exact Or.inl h
          · exact Or.inr ⟨List.mem_cons_of_mem a h1, h2⟩

theorem squashRuns_cons_of_notp (p : Char → Bool) (rep d : Char)
    (r : List Char) (hd : p d = false) :
    squashRuns p rep (d :: r) = d :: squashRuns p rep r := by
  cases r with
  | nil => rw [squashRuns_one, hd]; simp [squashRuns_nil]
  | cons e r2 => rw [squashRuns_two, hd]; simp

theorem squashRuns_chain (p : Char → Bool) (rep : Char) :
    ∀ l : List Char,
      List.Chain' (fun a b => p a = false ∨ p b = false) (squashRuns p rep l) := by
  intro l
  induction l with
  | nil => simp [squashRuns_nil]
  | cons a rest ih =>
    cases rest with
    | nil =>
      rw [squashRuns_one]
      by_cases ha : p a
      · rw [ha, if_pos rfl]; exact List.chain'_singleton rep
      · rw [Bool.not_eq_true] at ha
        rw [ha]
        simp only [Bool.false_eq_true, if_false]
        exact List.chain'_singleton a
    | cons d r =>
      rw [squashRuns_two]
      by_cases ha : p a
      · rw [ha, if_pos rfl]
        by_cases hd : p d
        · rw [hd, if_pos rfl]; exact ih
        · rw [Bool.not_eq_true] at hd
          rw [hd]
          simp only [Bool.false_eq_true, if_false]
          rw [squashRuns_cons_of_notp p rep d r hd, List.chain'_cons]
          refine ⟨Or.inr hd, ?_⟩
          rw [← squashRuns_cons_of_notp p rep d r hd]
          exact ih
      · rw [Bool.not_eq_true] at ha
        rw [ha]
        simp only [Bool.false_eq_true, if_false]
        rw [List.chain'_cons']
        exact ⟨fun y _ => Or.inl ha, ih⟩

theorem squashRuns_const (p : Char → Bool) (rep : Char) :
    ∀ l : List Char, l ≠ [] → (∀ c ∈ l, p c = true) →
      squashRuns p rep l = [rep] := by
  intro l
  induction l with
  | nil => intro h; exact absurd rfl h
  | cons a rest ih =>
    intro _ h
    have ha : p a = true := h a (List.mem_cons_self a rest)
    cases rest with
    | nil => rw [squashRuns_one, ha]; simp
    | cons d r =>
      have hd : p d = true := h d (List.mem_cons_of_mem a (List.mem_cons_self d r))
      rw [squashRuns_two, ha, if_pos rfl, hd, if_pos rfl]
      exact ih (by simp) (fun c hc => h c (List.mem_cons_of_mem a hc))

theorem squashRuns_id_of_chain (p : Char → Bool) (rep : Char)
    (hrep : ∀ c, p c = true → c = rep) :
    ∀ l : List Char,
      List.Chain' (fun a b => p a = false ∨ p b = false) l →
      squashRuns p rep l = l := by
  intro l
  induction l with
  | nil => intro _; rfl
  | cons a rest ih =>
    intro hch
    cases rest with
    | nil =>
      rw [squashRuns_one]
      by_cases ha : p a
      · rw [ha, if_pos rfl, hrep a ha]
      · rw [Bool.not_eq_true] at ha
        rw [ha]; simp
    | cons d r =>
      rw [List.chain'_cons] at hch
      have ih2 := ih hch.2
      rw [squashRuns_two, ih2]
      by_cases ha : p a
      · rw [ha, if_pos rfl]
        rcases hch.1 with h | h
        · rw [ha] at h; exact absurd h (by simp)
        · rw [h]
          simp only [Bool.false_eq_true, if_false]
          rw [hrep a ha]
      · rw [Bool.not_eq_true] at ha
        rw [ha]; simp

/-! Facts about the edge-hyphen stripping. -/

theorem dropLead_nil : dropLeadHyphen [] = [] := rfl

theorem dropLead_cons (c : Char) (rest : List Char) :
    dropLeadHyphen (c :: rest) = if c = '-' then rest else c :: rest := rfl

theorem dropLead_eq_dropWhile {l : List Char} (h : noDH l) :
    dropLeadHyphen l = l.dropWhile isH := by
  cases l with
  | nil => rfl
  | cons c rest =>
    by_cases hc : c = '-'
    · subst hc
      rw [dropLead_cons, if_pos rfl, List.dropWhile_cons]
      have h0 : isH '-' = true := by decide
      rw [h0, if_pos rfl]
      cases rest with
      | nil => rfl
      | cons d r =>
        unfold noDH at h
        rw [List.chain'_cons] at h
        rcases h.1 with h1 | h1
        · exact absurd h1 (by decide)
        · rw [List.dropWhile_cons, h1]; simp
    · rw [dropLead_cons, if_neg hc, List.dropWhile_cons]
      have h0 : isH c = false := by simp [isH, hc]
      rw [h0]; simp

theorem headOk_dropLead {l : List Char} (h : noDH l) :
    headOkB (dropLeadHyphen l) = true := by
  cases l with
  | nil => rfl
  | cons c rest =>
    by_cases hc : c = '-'
    · subst hc
      rw [dropLead_cons, if_pos rfl]
      cases rest with
      | nil => rfl
      | cons d r =>
        unfold noDH at h
        rw [List.chain'_cons] at h
        rcases h.1 with h1 | h1
        · exact absurd h1 (by decide)
        · simp [headOkB, h1]
    · rw [dropLead_cons, if_neg hc]
      simp [headOkB, isH, hc]

theorem mem_dropLead {l : List Char} {c : Char} (hc : c ∈ dropLeadHyphen l) :
    c ∈ l := by
  cases l with
  | nil => simp [dropLeadHyphen] at hc
  | cons a rest =>
    rw [dropLead_cons] at hc
    by_cases ha : a = '-'
    · rw [if_pos ha] at hc
      exact List.mem_cons_of_mem a hc
    · rw [if_neg ha] at hc
      exact hc

theorem noDH_dropLead {l : List Char} (h : noDH l) : noDH (dropLeadHyphen l) := by
  cases l with
  | nil => exact h
  | cons a rest =>
    rw [dropLead_cons]
    by_cases ha : a = '-'
    · rw [if_pos ha]
      exact h.tail
    · rw [if_neg ha]
      exact h

theorem noDH_reverse {l : List Char} (h : noDH l) : noDH l.reverse := by
  unfold noDH at h ⊢
  rw [List.chain'_reverse]
  exact h.imp (fun a b hab => hab.symm)

theorem headOk_append {x : List Char} {c : Char}
    (h : headOkB (x ++ [c]) = true) : headOkB x = true := by
  cases x with
  | nil => rfl
  | cons a r => simpa [headOkB] using h

theorem stripEdge_eq_stripAll {l : List Char} (h : noDH l) :
    stripEdgeHyphens l =
      ((l.dropWhile isH).reverse.dropWhile isH).reverse := by
  unfold stripEdgeHyphens
  rw [dropLead_eq_dropWhile h,
    dropLead_eq_dropWhile (noDH_reverse (by rw [← dropLead_eq_dropWhile h]; exact noDH_dropLead h))]

theorem mem_stripEdge {l : List Char} {c : Char}
    (hc : c ∈ stripEdgeHyphens l) : c ∈ l := by
  unfold stripEdgeHyphens at hc
  rw [List.mem_reverse] at hc
  have h1 := mem_dropLead hc
  rw [List.mem_reverse] at h1
  exact mem_dropLead h1

theorem noDH_stripEdge {l : List Char} (h : noDH l) :
    noDH (stripEdgeHyphens l) := by
  unfold stripEdgeHyphens
  exact noDH_reverse (noDH_dropLead (noDH_reverse (noDH_dropLead h)))

theorem lastOk_stripEdge {l : List Char} (h : noDH l) :
    headOkB (stripEdgeHyphens l).reverse = true := by
  unfold stripEdgeHyphens
  rw [List.reverse_reverse]
  exact headOk_dropLead (noDH_reverse (noDH_dropLead h))

theorem headOk_stripEdge {l : List Char} (h : noDH l) :
    headOkB (stripEdgeHyphens l) = true := by
  have h1 : headOkB (dropLeadHyphen l) = true := headOk_dropLead h
  unfold stripEdgeHyphens
  cases hrev : (dropLeadHyphen l).reverse with
  | nil => rw [dropLead_nil]; rfl
  | cons c rest =>
    have hl1 : dropLeadHyphen l = rest.reverse ++ [c] := by
      have h2 := congrArg List.reverse hrev
      rw [List.reverse_reverse] at h2
      rw [h2, List.reverse_cons]
    rw [dropLead_cons]
    by_cases hc : c = '-'
    · rw [if_pos hc]
      exact headOk_append (hl1 ▸ h1)
    · rw [if_neg hc, List.reverse_cons, ← hl1]
      exact h1

theorem stripEdge_id {l : List Char} (h1 : headOkB l = true)
    (h2 : headOkB l.reverse = true) : stripEdgeHyphens l = l := by
  have hid : ∀ m : List Char, headOkB m = true → dropLeadHyphen m = m := by
    intro m hm
    cases m with
    | nil => rfl
    | cons a r =>
      rw [dropLead_cons, if_neg]
      intro ha
      subst ha
      simp [headOkB, isH] at hm
  unfold stripEdgeHyphens
  rw [hid l h1, hid l.reverse h2, List.reverse_reverse]

/-! The canonical-form argument for the slug pipeline. -/

theorem filter_keep_slug (l : List Char) :
    ∀ c ∈ (trimWs (l.flatMap jsToLower)).filter keepChar,
      isWs c = true ∨ slugChar c = true := by
  intro c hc
  rw [List.mem_filter] at hc
  by_cases hw : isWs c
  · exact Or.inl hw
  · rw [Bool.not_eq_true] at hw
    exact Or.inr (keep_not_ws_slug hc.2 hw)

theorem squashWs_slug (l : List Char) :
    ∀ c ∈ squashRuns isWs '-' ((trimWs (l.flatMap jsToLower)).filter keepChar),
      slugChar c = true := by
  intro c hc
  rcases squashRuns_mem isWs '-' _ c hc with h | ⟨h1, h2⟩
  · subst h; decide
  · rcases filter_keep_slug l c h1 with h | h
    · rw [h2] at h; exact absurd h (by simp)
    · exact h

theorem squashH_slug (l : List Char) :
    ∀ c ∈ squashRuns isH '-'
        (squashRuns isWs '-' ((trimWs (l.flatMap jsToLower)).filter keepChar)),
      slugChar c = true := by
  intro c hc
  rcases squashRuns_mem isH '-' _ c hc with h | ⟨h1, _⟩
  · subst h; decide
  · exact squashWs_slug l c h1

theorem generateSlug_canonical (l : List Char) :
    canonicalSlug (generateSlugL l) := by
  have hch : noDH (squashRuns isH '-'
      (squashRuns isWs '-' ((trimWs (l.flatMap jsToLower)).filter keepChar))) :=
    squashRuns_chain isH '-' _
  refine ⟨?_, ?_, ?_, ?_⟩
  · intro c hc
    exact squashH_slug l c (mem_stripEdge hc)
  · exact noDH_stripEdge hch
  · exact headOk_stripEdge hch
  · exact lastOk_stripEdge hch

theorem trimWs_id {l : List Char} (h : ∀ c ∈ l, isWs c = false) :
    trimWs l = l := by
  unfold trimWs
  rw [dropWhile_id_of isWs l h]
  rw [dropWhile_id_of isWs l.reverse (fun c hc => h c (List.mem_reverse.mp hc))]
  exact List.reverse_reverse l

theorem generateSlugL_id {l : List Char} (h : canonicalSlug l) :
    generateSlugL l = l := by
  obtain ⟨hs, hch, hh, hl⟩ := h
  have hnw : ∀ c ∈ l, isWs c = false := fun c hc => slugChar_not_ws (hs c hc)
  unfold generateSlugL
  rw [flatMap_id_of_fix jsToLower l (fun c hc => slugChar_toLower (hs c hc))]
  rw [trimWs_id hnw]
  rw [filter_id_of keepChar l (fun c hc => slugChar_keep (hs c hc))]
  rw [squashRuns_id_of_notp isWs '-' l hnw]
  rw [squashRuns_id_of_chain isH '-' (fun c hc => isH_eq hc) l hch]
  exact stripEdge_id hh hl

theorem mk_toList (l : List Char) : (String.mk l).toList = l := rfl

theorem generateSlugL_no_alnum {l : List Char}
    (h : ∀ c ∈ l, ∀ d ∈ jsToLower c,
      isLowerAZ d = false ∧ isDigitC d = false) :
    generateSlugL l = [] := by
  have h1 : ∀ c ∈ l.flatMap jsToLower,
      isLowerAZ c = false ∧ isDigitC c = false := by
    intro c hc
    rw [List.mem_flatMap] at hc
    obtain ⟨d, hd, hcd⟩ := hc
    exact h d hd c hcd
  have h2 : ∀ c ∈ (trimWs (l.flatMap jsToLower)).filter keepChar,
      isWs c = true ∨ isH c = true := by
    intro c hc
    rw [List.mem_filter] at hc
    have h3 := h1 c (mem_trimWs _ c hc.1)
    have h4 : isLowerAZ c = true ∨ isDigitC c = true ∨ isWs c = true ∨ isH c = true := by
      simpa [keepChar, Bool.or_eq_true, or_assoc] using hc.2
    rcases h4 with h4 | h4 | h4 | h4
    · rw [h3.1] at h4; exact absurd h4 (by simp)
    · rw [h3.2] at h4; exact absurd h4 (by simp)
    · exact Or.inl h4
    · exact Or.inr h4
  have h5 : ∀ c ∈ squashRuns isWs '-' ((trimWs (l.flatMap jsToLower)).filter keepChar),
      isH c = true := by
    intro c hc
    rcases squashRuns_mem isWs '-' _ c hc with hcr | ⟨hc1, hc2⟩
    · subst hcr; decide
    · rcases h2 c hc1 with hw | hw
      · rw [hc2] at hw; exact absurd hw (by simp)
      · exact hw
  unfold generateSlugL
  cases hs3 : squashRuns isWs '-' ((trimWs (l.flatMap jsToLower)).filter keepChar) with
  | nil => rfl
  | cons a r =>
    rw [squashRuns_const isH '-' (a :: r) (by simp)
      (fun c hc => h5 c (by rw [hs3]; exact hc))]
    rfl

/-! Claim theorems for the slug function. -/

/-- C5: for every title string, `generateSlug` equals the composite the
specification describes (lowercase, trim, delete characters outside the
slug class, turn whitespace runs into single hyphens, collapse hyphen
runs, strip the edge hyphens), and on the concrete example the result is
hello-world-2024. -/
theorem claim5_generateSlug_matches_spec :
    (∀ s : String, generateSlug s = String.mk (generateSlugSpecL s.toList)) ∧
      generateSlug ("Hello, World!!! 2024") = ("hello-world-2024") := by
  constructor
  · intro s
    unfold generateSlug generateSlugSpecL
    unfold generateSlugL
    rw [stripEdge_eq_stripAll (squashRuns_chain isH '-' _)]
  · decide

/-- C6: `generateSlug` is idempotent on its own output. -/
theorem claim6_generateSlug_idempotent (t : String) :
    generateSlug (generateSlug t) = generateSlug t := by
  unfold generateSlug
  rw [mk_toList]
  exact congrArg String.mk (generateSlugL_id (generateSlug_canonical t.toList))

/-- C10 counterexample: the Kelvin sign title contains no ASCII letter or
digit, yet its slug is k rather than the empty string, because
toLowerCase maps U+212A to the ASCII letter k, which survives the slug
filter. -/
theorem claim10_counterexample :
    (∀ c ∈ ("\u212A").toList,
        isUpperAZ c = false ∧ isLowerAZ c = false ∧ isDigitC c = false) ∧
      generateSlug ("\u212A") = ("k") ∧
      ¬ generateSlug ("\u212A") = ("") :=
  ⟨by decide, by decide, by decide⟩

/-- C10 amended: a title none of whose characters lowercases to an ASCII
letter or digit produces the empty slug (a title merely without ASCII
letters or digits can produce a nonempty slug, as the Kelvin sign shows);
the slug field of the Event schema carries no required constraint, so an
Event built from such a title stores the empty slug; and any two such
titles collide on the same empty slug. -/
theorem claim10_empty_slug_titles :
    (∀ t : String,
        (∀ c ∈ t.toList, ∀ d ∈ jsToLower c,
          isLowerAZ d = false ∧ isDigitC d = false) →
        generateSlug t = ("")) ∧
      eventSlugOptions.required = false ∧
      (∀ t1 t2 : String,
        (∀ c ∈ t1.toList, ∀ d ∈ jsToLower c,
          isLowerAZ d = false ∧ isDigitC d = false) →
        (∀ c ∈ t2.toList, ∀ d ∈ jsToLower c,
          isLowerAZ d = false ∧ isDigitC d = false) →
        generateSlug t1 = generateSlug t2) := by
  have hmain : ∀ t : String,
      (∀ c ∈ t.toList, ∀ d ∈ jsToLower c,
        isLowerAZ d = false ∧ isDigitC d = false) →
      generateSlug t = ("") := by
    intro t ht
    unfold generateSlug
    rw [generateSlugL_no_alnum ht]
  refine ⟨hmain, rfl, fun t1 t2 h1 h2 => ?_⟩
  rw [hmain t1 h1, hmain t2 h2]

/-- Witness for C10 at concrete titles. -/
theorem claim10_empty_slug_titles_witness :
    generateSlug ("!!!") = ("") ∧ generateSlug ("- -") = generateSlug ("###") :=
  ⟨claim10_empty_slug_titles.1 ("!!!") (by decide),
    claim10_empty_slug_titles.2.2 ("- -") ("###") (by decide) (by decide)⟩

/-! Claim theorems for the time normalizer. -/

theorem pad2_len_lt24 : ∀ n, n < 24 →
    (padStartC 2 '0' (jsNatToString n)).length = 2 := by decide

/-- C3 counterexample: the input 25:00 does match the accepted pattern, so
`normalizeTime` does not fail with the invalid-format error there. -/
theorem claim3_counterexample :
    ¬(normalizeTime ("25:00") = Except.error TimeError.InvalidTimeFormat) := by
  decide

/-- C3 amended: `normalizeTime` of 25:00 fails with `InvalidTimeValues`
(the pattern matches and the range check rejects hour 25), and every input
whose trimmed form fails the pattern yields `InvalidTimeFormat`. -/
theorem claim3_time_errors :
    normalizeTime ("25:00") = Except.error TimeError.InvalidTimeValues ∧
      (∀ s : String, matchTime (trimWs s.toList) = none →
        normalizeTime s = Except.error TimeError.InvalidTimeFormat) := by
  constructor
  · decide
  · intro s h
    unfold normalizeTime normalizeTimeL
    rw [h]
    rfl

/-- Witness for C3: both branches of the amended statement at concrete
inputs. -/
theorem claim3_time_errors_witness :
    normalizeTime ("25:00") = Except.error TimeError.InvalidTimeValues ∧
      normalizeTime ("banana") = Except.error TimeError.InvalidTimeFormat :=
  ⟨claim3_time_errors.1, claim3_time_errors.2 ("banana") (by decide)⟩

/-- C4: on every input whose trimmed form matches the time pattern, the
result is the zero-padded 24-hour conversion joined by a colon to the
minute digits passed through verbatim, succeeding exactly when the
converted hour is at most 23 and the minute value at most 59 and failing
with `InvalidTimeValues` otherwise; the conversion sends 12 AM to 0,
12 PM to 12, and an hour below 12 with PM to that hour plus 12; and the
two concrete examples of the specification evaluate as stated. -/
theorem claim4_normalizeTime_matched (s : String) (m : TimeMatch)
    (h : matchTime (trimWs s.toList) = some m) :
    (to24Hour m.hours m.period ≤ 23 ∧
        digitVal m.minTens * 10 + digitVal m.minOnes ≤ 59 →
      normalizeTime s = Except.ok (String.mk
        (padStartC 2 '0' (jsNatToString (to24Hour m.hours m.period)) ++
          ':' :: m.minTens :: [m.minOnes]))) ∧
    (to24Hour m.hours m.period > 23 ∨
        digitVal m.minTens * 10 + digitVal m.minOnes > 59 →
      normalizeTime s = Except.error TimeError.InvalidTimeValues) ∧
    (to24Hour m.hours m.period ≤ 23 →
      (padStartC 2 '0' (jsNatToString (to24Hour m.hours m.period))).length = 2) ∧
    to24Hour 12 (some Period.AM) = 0 ∧
    to24Hour 12 (some Period.PM) = 12 ∧
    (∀ hr, hr < 12 → to24Hour hr (some Period.PM) = hr + 12) ∧
    normalizeTime ("2:30 PM") = Except.ok ("14:30") ∧
    normalizeTime ("12:00 AM") = Except.ok ("00:00") := by
  refine ⟨?_, ?_, ?_, by decide, by decide, ?_, by decide, by decide⟩
  · intro hok
    unfold normalizeTime normalizeTimeL
    rw [h]
    simp only []
    rw [if_neg (by omega :
      ¬(to24Hour m.hours m.period > 23 ∨
          digitVal m.minTens * 10 + digitVal m.minOnes > 59))]
    rfl
  · intro hbad
    unfold normalizeTime normalizeTimeL
    rw [h]
    simp only []
    rw [if_pos hbad]
    rfl
  · intro hh
    exact pad2_len_lt24 (to24Hour m.hours m.period) (by omega)
  · intro hr hhr
    unfold to24Hour
    rw [if_pos (by omega : hr ≠ 12)]

/-- Witness for C4: one matching input in range and one matching input out
of range. -/
theorem claim4_normalizeTime_matched_witness :
    normalizeTime ("7:45 PM") = Except.ok ("19:45") ∧
      normalizeTime ("7:99 PM") = Except.error TimeError.InvalidTimeValues := by
  constructor
  · have h := (claim4_normalizeTime_matched ("7:45 PM")
      ⟨7, '4', '5', some Period.PM⟩ (by decide)).1 (by decide)
    rw [h]
    decide
  · exact (claim4_normalizeTime_matched ("7:99 PM")
      ⟨7, '9', '9', some Period.PM⟩ (by decide)).2.1 (by decide)

/-! Claim theorems for the date normalizer. -/

theorem digitChar_digit {k : Nat} (hk : k < 10) :
    isDigitC (Nat.digitChar k) = true := by
  interval_cases k <;> decide

theorem toDigitsCore_digits :
    ∀ (f : Nat) (n : Nat) (acc : List Char),
      (∀ c ∈ acc, isDigitC c = true) →
      ∀ c ∈ Nat.toDigitsCore 10 f n acc, isDigitC c = true := by
  intro f
  induction f with
  | zero =>
    intro n acc hacc c hc
    exact hacc c hc
  | succ f ih =>
    intro n acc hacc c hc
    simp only [Nat.toDigitsCore] at hc
    have hacc2 : ∀ c2 ∈ Nat.digitChar (n % 10) :: acc, isDigitC c2 = true := by
      intro c2 hc2
      rcases List.mem_cons.mp hc2 with h | h
      · subst h
        exact digitChar_digit (Nat.mod_lt n (by norm_num))
      · exact hacc c2 h
    by_cases hz : n / 10 = 0
    · rw [if_pos hz] at hc
      exact hacc2 c hc
    · rw [if_neg hz] at hc
      exact ih (n / 10) (Nat.digitChar (n % 10) :: acc) hacc2 c hc

theorem jsNatToString_digits (n : Nat) :
    ∀ c ∈ jsNatToString n, isDigitC c = true := by
  unfold jsNatToString Nat.toDigits
  exact toDigitsCore_digits (n + 1) n [] (by simp)

theorem digit_ne_T {c : Char} (h : isDigitC c = true) : ¬ c = 'T' := by
  intro hT
  subst hT
  exact absurd h (by decide)

theorem mem_padStartC {len : Nat} {pc c : Char} {l : List Char}
    (hc : c ∈ padStartC len pc l) : c = pc ∨ c ∈ l := by
  unfold padStartC at hc
  rcases List.mem_append.mp hc with h | h
  · exact Or.inl (List.eq_of_mem_replicate h)
  · exact Or.inr h

theorem isoYear_no_T (y : Int) : ∀ c ∈ isoYear y, ¬ c = 'T' := by
  intro c hc
  unfold isoYear at hc
  split at hc
  · rcases mem_padStartC hc with h | h
    · subst h; decide
    · exact digit_ne_T (jsNatToString_digits _ c h)
  · split at hc
    · rcases List.mem_cons.mp hc with h | h
      · subst h; decide
      · rcases mem_padStartC h with h2 | h2
        · subst h2; decide
        · exact digit_ne_T (jsNatToString_digits _ c h2)
    · rcases List.mem_cons.mp hc with h | h
      · subst h; decide
      · rcases mem_padStartC h with h2 | h2
        · subst h2; decide
        · exact digit_ne_T (jsNatToString_digits _ c h2)

theorem isoDate_no_T (t : Int) : ∀ c ∈ isoDateOfMs t, ¬ c = 'T' := by
  intro c hc
  unfold isoDateOfMs at hc
  rcases hcd : civilFromDays (t.fdiv msPerDay) with ⟨y, m, d⟩
  rw [hcd] at hc
  simp only [] at hc
  rcases List.mem_append.mp hc with h | h
  · rcases List.mem_append.mp h with h1 | h1
    · exact isoYear_no_T _ c h1
    · rcases List.mem_cons.mp h1 with h2 | h2
      · subst h2; decide
      · rcases mem_padStartC h2 with h3 | h3
        · subst h3; decide
        · exact digit_ne_T (jsNatToString_digits _ c h3)
  · rcases List.mem_cons.mp h with h2 | h2
    · subst h2; decide
    · rcases mem_padStartC h2 with h3 | h3
      · subst h3; decide
      · exact digit_ne_T (jsNatToString_digits _ c h3)

theorem takeWhile_append_of_all (p : Char → Bool) :
    ∀ (a b : List Char), (∀ c ∈ a, p c = true) →
      (a ++ b).takeWhile p = a ++ b.takeWhile p := by
  intro a
  induction a with
  | nil => intro b _; rfl
  | cons x r ih =>
    intro b h
    have hx := h x (List.mem_cons_self x r)
    have ih2 := ih b (fun c hc => h c (List.mem_cons_of_mem x hc))
    simp [List.takeWhile_cons, hx, ih2]

theorem normalizeDateL_parsed (hp : List Char → Option Int)
    (l : List Char) (t : Int) (h : hp l = some t) :
    normalizeDateL hp l = Except.ok (isoDateOfMs t) := by
  unfold normalizeDateL
  rw [h]
  show Except.ok ((toISOString t).takeWhile (fun c => !(c = 'T' : Bool))) =
    Except.ok (isoDateOfMs t)
  unfold toISOString
  rw [takeWhile_append_of_all _ _ _
    (fun c hc => by simp [isoDate_no_T t c hc])]
  have hT : ('T' :: isoTimeOfMs t).takeWhile (fun c => !(c = 'T' : Bool)) = [] := by
    simp [List.takeWhile_cons]
  rw [hT, List.append_nil]

/-- C7: for every host-parser outcome, `normalizeDate` fails with
`InvalidDateFormat` exactly on unparseable input and otherwise returns the
date portion (the prefix before the letter T, in year-month-day form) of
the ISO rendering of the parsed timestamp; in particular a host that
parses March 5, 2024 to UTC midnight of that day yields 2024-03-05, and a
host that rejects the string not a date yields `InvalidDateFormat`. -/
theorem claim7_normalizeDate (hp : List Char → Option Int) :
    (∀ l, hp l = none →
        normalizeDateL hp l = Except.error DateError.InvalidDateFormat) ∧
      (∀ l t, hp l = some t →
        normalizeDateL hp l = Except.ok (isoDateOfMs t)) ∧
      (hp (("March 5, 2024").toList) = some 1709596800000 →
        normalizeDateL hp (("March 5, 2024").toList) =
          Except.ok (("2024-03-05").toList)) ∧
      (hp (("not a date").toList) = none →
        normalizeDateL hp (("not a date").toList) =
          Except.error DateError.InvalidDateFormat) := by
  refine ⟨?_, normalizeDateL_parsed hp, ?_, ?_⟩
  · intro l h
    unfold normalizeDateL
    rw [h]
  · intro h
    rw [normalizeDateL_parsed hp _ _ h]
    decide
  · intro h
    unfold normalizeDateL
    rw [h]

/-- Witness for C7 with a concrete host parser. -/
theorem claim7_normalizeDate_witness :
    normalizeDateL hpMarch (("March 5, 2024").toList) =
        Except.ok (("2024-03-05").toList) ∧
      normalizeDateL hpMarch (("not a date").toList) =
        Except.error DateError.InvalidDateFormat :=
  ⟨(claim7_normalizeDate hpMarch).2.2.1 (by decide),
    (claim7_normalizeDate hpMarch).2.2.2 (by decide)⟩

/-! Claim theorems for the event-creation pipeline. -/

theorem POST_connect_err (env : PostEnv) (store : List EventInput)
    (e : String) (hc : env.connectDB = Except.error e) :
    POST env store =
      ⟨⟨500, Body.msgError ("Event Creation Failed") e⟩, store, []⟩ := by
  simp [POST, hc]

theorem POST_form_err (env : PostEnv) (store : List EventInput) (e : String)
    (hc : env.connectDB = Except.ok ()) (hf : env.formData = Except.error e) :
    POST env store =
      ⟨⟨500, Body.msgError ("Event Creation Failed") e⟩, store,
        [Effect.connected]⟩ := by
  simp [POST, hc, hf]

theorem POST_no_image (env : PostEnv) (store : List EventInput)
    (fd : FormDataM) (hc : env.connectDB = Except.ok ())
    (hf : env.formData = Except.ok fd) (hi : fdGet fd ("image") = none) :
    POST env store =
      ⟨⟨400, Body.msg ("Image file is required")⟩, store,
        [Effect.connected, Effect.formParsed]⟩ := by
  simp [POST, hc, hf, hi]

theorem POST_falsy_image (env : PostEnv) (store : List EventInput)
    (fd : FormDataM) (fv : FormVal) (hc : env.connectDB = Except.ok ())
    (hf : env.formData = Except.ok fd) (hi : fdGet fd ("image") = some fv)
    (hfv : isFalsyVal fv = true) :
    POST env store =
      ⟨⟨400, Body.msg ("Image file is required")⟩, store,
        [Effect.connected, Effect.formParsed]⟩ := by
  simp [POST, hc, hf, hi, hfv]

theorem POST_tags_err (env : PostEnv) (store : List EventInput)
    (fd : FormDataM) (fv : FormVal) (e : String)
    (hc : env.connectDB = Except.ok ()) (hf : env.formData = Except.ok fd)
    (hi : fdGet fd ("image") = some fv) (hfv : isFalsyVal fv = false)
    (ht : env.jsonParse (fdGet fd ("tags")) = Except.error e) :
    POST env store =
      ⟨⟨500, Body.msgError ("Event Creation Failed") e⟩, store,
        [Effect.connected, Effect.formParsed]⟩ := by
  simp [POST, hc, hf, hi, hfv, ht]

theorem POST_agenda_err (env : PostEnv) (store : List EventInput)
    (fd : FormDataM) (fv : FormVal) (tags : Json) (e : String)
    (hc : env.connectDB = Except.ok ()) (hf : env.formData = Except.ok fd)
    (hi : fdGet fd ("image") = some fv) (hfv : isFalsyVal fv = false)
    (ht : env.jsonParse (fdGet fd ("tags")) = Except.ok tags)
    (ha : env.jsonParse (fdGet fd ("agenda")) = Except.error e) :
    POST env store =
      ⟨⟨500, Body.msgError ("Event Creation Failed") e⟩, store,
        [Effect.connected, Effect.formParsed]⟩ := by
  simp [POST, hc, hf, hi, hfv, ht, ha]

theorem POST_bytes_err (env : PostEnv) (store : List EventInput)
    (fd : FormDataM) (fv : FormVal) (tags agenda : Json) (e : String)
    (hc : env.connectDB = Except.ok ()) (hf : env.formData = Except.ok fd)
    (hi : fdGet fd ("image") = some fv) (hfv : isFalsyVal fv = false)
    (ht : env.jsonParse (fdGet fd ("tags")) = Except.ok tags)
    (ha : env.jsonParse (fdGet fd ("agenda")) = Except.ok agenda)
    (hb : bytesOf fv = Except.error e) :
    POST env store =
      ⟨⟨500, Body.msgError ("Event Creation Failed") e⟩, store,
        [Effect.connected, Effect.formParsed]⟩ := by
  simp [POST, hc, hf, hi, hfv, ht, ha, hb]

theorem POST_upload_err (env : PostEnv) (store : List EventInput)
    (fd : FormDataM) (fv : FormVal) (tags agenda : Json)
    (buffer : List Nat) (e : String)
    (hc : env.connectDB = Except.ok ()) (hf : env.formData = Except.ok fd)
    (hi : fdGet fd ("image") = some fv) (hfv : isFalsyVal fv = false)
    (ht : env.jsonParse (fdGet fd ("tags")) = Except.ok tags)
    (ha : env.jsonParse (fdGet fd ("agenda")) = Except.ok agenda)
    (hb : bytesOf fv = Except.ok buffer)
    (hup : env.upload buffer = Except.error e) :
    POST env store =
      ⟨⟨500, Body.msgError ("Event Creation Failed") e⟩, store,
        [Effect.connected, Effect.formParsed, Effect.uploadAwaited]⟩ := by
  simp [POST, hc, hf, hi, hfv, ht, ha, hb, hup]

theorem POST_create_err (env : PostEnv) (store : List EventInput)
    (fd : FormDataM) (fv : FormVal) (tags agenda : Json)
    (buffer : List Nat) (u : UploadResult) (e : String)
    (hc : env.connectDB = Except.ok ()) (hf : env.formData = Except.ok fd)
    (hi : fdGet fd ("image") = some fv) (hfv : isFalsyVal fv = false)
    (ht : env.jsonParse (fdGet fd ("tags")) = Except.ok tags)
    (ha : env.jsonParse (fdGet fd ("agenda")) = Except.ok agenda)
    (hb : bytesOf fv = Except.ok buffer)
    (hup : env.upload buffer = Except.ok u)
    (hcr : env.create ⟨setKey ("image") (FormVal.str u.secure_url)
        (fromEntries fd), tags, agenda⟩ = Except.error e) :
    POST env store =
      ⟨⟨500, Body.msgError ("Event Creation Failed") e⟩, store,
        [Effect.connected, Effect.formParsed, Effect.uploadAwaited,
          Effect.persistAttempted]⟩ := by
  simp [POST, hc, hf, hi, hfv, ht, ha, hb, hup, hcr]

theorem POST_create_ok (env : PostEnv) (store : List EventInput)
    (fd : FormDataM) (fv : FormVal) (tags agenda : Json)
    (buffer : List Nat) (u : UploadResult) (doc : EventInput)
    (hc : env.connectDB = Except.ok ()) (hf : env.formData = Except.ok fd)
    (hi : fdGet fd ("image") = some fv) (hfv : isFalsyVal fv = false)
    (ht : env.jsonParse (fdGet fd ("tags")) = Except.ok tags)
    (ha : env.jsonParse (fdGet fd ("agenda")) = Except.ok agenda)
    (hb : bytesOf fv = Except.ok buffer)
    (hup : env.upload buffer = Except.ok u)
    (hcr : env.create ⟨setKey ("image") (FormVal.str u.secure_url)
        (fromEntries fd), tags, agenda⟩ = Except.ok doc) :
    POST env store =
      ⟨⟨201, Body.msgEvent ("Event Created Successfully") doc⟩,
        store ++ [doc],
        [Effect.connected, Effect.formParsed, Effect.uploadAwaited,
          Effect.persistAttempted]⟩ := by
  simp [POST, hc, hf, hi, hfv, ht, ha, hb, hup, hcr]

/-- C1: whenever the Cloudinary upload rejects, the store is unchanged and
no persist is attempted; and in every run that does attempt a persist, the
trace is exactly connect, form parse, awaited upload completion, persist,
so the upload has been awaited to completion before the persist. -/
theorem claim1_upload_failure_blocks_persist :
    (∀ (env : PostEnv) (store : List EventInput) (e : String),
      (∀ b, env.upload b = Except.error e) →
      (POST env store).store = store ∧
        Effect.persistAttempted ∉ (POST env store).trace) ∧
    (∀ (env : PostEnv) (store : List EventInput),
      Effect.persistAttempted ∈ (POST env store).trace →
      (POST env store).trace =
        [Effect.connected, Effect.formParsed, Effect.uploadAwaited,
          Effect.persistAttempted]) := by
  have hnil : Effect.persistAttempted ∉ ([] : List Effect) := by decide
  have h1l : Effect.persistAttempted ∉ [Effect.connected] := by decide
  have h2l : Effect.persistAttempted ∉ [Effect.connected, Effect.formParsed] := by
    decide
  have h3l : Effect.persistAttempted ∉
      [Effect.connected, Effect.formParsed, Effect.uploadAwaited] := by decide
  constructor
  · intro env store e hu
    rcases hc : env.connectDB with e1 | u1
    · rw [POST_connect_err env store e1 hc]
      exact ⟨rfl, hnil⟩
    · obtain rfl : u1 = () := rfl
      rcases hf : env.formData with e1 | fd
      · rw [POST_form_err env store e1 hc hf]
        exact ⟨rfl, h1l⟩
      · rcases hi : fdGet fd ("image") with _ | fv
        · rw [POST_no_image env store fd hc hf hi]
          exact ⟨rfl, h2l⟩
        · cases hfv : isFalsyVal fv with
          | true =>
            rw [POST_falsy_image env store fd fv hc hf hi hfv]
            exact ⟨rfl, h2l⟩
          | false =>
            rcases ht : env.jsonParse (fdGet fd ("tags")) with e1 | tags
            · rw [POST_tags_err env store fd fv e1 hc hf hi hfv ht]
              exact ⟨rfl, h2l⟩
            · rcases ha : env.jsonParse (fdGet fd ("agenda")) with e1 | agenda
              · rw [POST_agenda_err env store fd fv tags e1 hc hf hi hfv ht ha]
                exact ⟨rfl, h2l⟩
              · rcases hb : bytesOf fv with e1 | buffer
                · rw [POST_bytes_err env store fd fv tags agenda e1
                    hc hf hi hfv ht ha hb]
                  exact ⟨rfl, h2l⟩
                · rw [POST_upload_err env store fd fv tags agenda buffer e
                    hc hf hi hfv ht ha hb (hu buffer)]
                  exact ⟨rfl, h3l⟩
  · intro env store h
    rcases hc : env.connectDB with e1 | u1
    · rw [POST_connect_err env store e1 hc] at h
      exact absurd h hnil
    · obtain rfl : u1 = () := rfl
      rcases hf : env.formData with e1 | fd
      · rw [POST_form_err env store e1 hc hf] at h
        exact absurd h h1l
      · rcases hi : fdGet fd ("image") with _ | fv
        · rw [POST_no_image env store fd hc hf hi] at h
          exact absurd h h2l
        · cases hfv : isFalsyVal fv with
          | true =>
            rw [POST_falsy_image env store fd fv hc hf hi hfv] at h
            exact absurd h h2l
          | false =>
            rcases ht : env.jsonParse (fdGet fd ("tags")) with e1 | tags
            · rw [POST_tags_err env store fd fv e1 hc hf hi hfv ht] at h
              exact absurd h h2l
            · rcases ha : env.jsonParse (fdGet fd ("agenda")) with e1 | agenda
              · rw [POST_agenda_err env store fd fv tags e1
                  hc hf hi hfv ht ha] at h
                exact absurd h h2l
              · rcases hb : bytesOf fv with e1 | buffer
                · rw [POST_bytes_err env store fd fv tags agenda e1
                    hc hf hi hfv ht ha hb] at h
                  exact absurd h h2l
                · rcases hup : env.upload buffer with e1 | u
                  · rw [POST_upload_err env store fd fv tags agenda buffer e1
                      hc hf hi hfv ht ha hb hup] at h
                    exact absurd h h3l
                  · rcases hcr : env.create
                        ⟨setKey ("image") (FormVal.str u.secure_url)
                          (fromEntries fd), tags, agenda⟩ with e1 | doc
                    · rw [POST_create_err env store fd fv tags agenda buffer u
                        e1 hc hf hi hfv ht ha hb hup hcr]
                    · rw [POST_create_ok env store fd fv tags agenda buffer u
                        doc hc hf hi hfv ht ha hb hup hcr]

/-- Witness for C1: a run whose upload rejects leaves the store empty and
never attempts a persist, and the all-success run that does persist shows
the awaited upload completion strictly before the persist in its trace. -/
theorem claim1_upload_failure_blocks_persist_witness :
    ((POST envUploadFail []).store = [] ∧
        Effect.persistAttempted ∉ (POST envUploadFail []).trace) ∧
      (POST envAllOk []).trace =
        [Effect.connected, Effect.formParsed, Effect.uploadAwaited,
          Effect.persistAttempted] :=
  ⟨claim1_upload_failure_blocks_persist.1 envUploadFail [] ("network error")
      (fun _ => rfl),
    claim1_upload_failure_blocks_persist.2 envAllOk [] (by decide)⟩

/-- C2 counterexample: a request whose image part is present but whose
tags field fails JSON parsing is answered with status 500 (message and
error), not with the 400 the claim asserts for malformed structured
fields. -/
theorem claim2_counterexample :
    (POST envBadTags []).response.status = 500 ∧
      ¬((POST envBadTags []).response.status = 400) := by
  constructor
  · rfl
  · intro h
    have h2 : (500 : Nat) = 400 := by
      have h1 : (POST envBadTags []).response.status = 500 := rfl
      rw [← h1, h]
    exact absurd h2 (by decide)

/-- C2 amended: the endpoint answers 201 with message and event on
success; 400 with a message exactly for the missing or empty image part;
and 500 with message and error when the tags or agenda field fails JSON
parsing, when the upload rejects, or when the persist rejects. -/
theorem claim2_response_statuses :
    (∀ (env : PostEnv) (store : List EventInput) (fd : FormDataM)
        (fv : FormVal) (tags agenda : Json) (buffer : List Nat)
        (u : UploadResult) (doc : EventInput),
      env.connectDB = Except.ok () → env.formData = Except.ok fd →
      fdGet fd ("image") = some fv → isFalsyVal fv = false →
      env.jsonParse (fdGet fd ("tags")) = Except.ok tags →
      env.jsonParse (fdGet fd ("agenda")) = Except.ok agenda →
      bytesOf fv = Except.ok buffer →
      env.upload buffer = Except.ok u →
      env.create ⟨setKey ("image") (FormVal.str u.secure_url)
          (fromEntries fd), tags, agenda⟩ = Except.ok doc →
      (POST env store).response =
        ⟨201, Body.msgEvent ("Event Created Successfully") doc⟩) ∧
    (∀ (env : PostEnv) (store : List EventInput) (fd : FormDataM),
      env.connectDB = Except.ok () → env.formData = Except.ok fd →
      fdGet fd ("image") = none →
      (POST env store).response =
        ⟨400, Body.msg ("Image file is required")⟩) ∧
    (∀ (env : PostEnv) (store : List EventInput) (fd : FormDataM)
        (fv : FormVal),
      env.connectDB = Except.ok () → env.formData = Except.ok fd →
      fdGet fd ("image") = some fv → isFalsyVal fv = true →
      (POST env store).response =
        ⟨400, Body.msg ("Image file is required")⟩) ∧
    (∀ (env : PostEnv) (store : List EventInput) (fd : FormDataM)
        (fv : FormVal) (e : String),
      env.connectDB = Except.ok () → env.formData = Except.ok fd →
      fdGet fd ("image") = some fv → isFalsyVal fv = false →
      env.jsonParse (fdGet fd ("tags")) = Except.error e →
      (POST env store).response =
        ⟨500, Body.msgError ("Event Creation Failed") e⟩) ∧
    (∀ (env : PostEnv) (store : List EventInput) (fd : FormDataM)
        (fv : FormVal) (tags : Json) (e : String),
      env.connectDB = Except.ok () → env.formData = Except.ok fd →
      fdGet fd ("image") = some fv → isFalsyVal fv = false →
      env.jsonParse (fdGet fd ("tags")) = Except.ok tags →
      env.jsonParse (fdGet fd ("agenda")) = Except.error e →
      (POST env store).response =
        ⟨500, Body.msgError ("Event Creation Failed") e⟩) ∧
    (∀ (env : PostEnv) (store : List EventInput) (fd : FormDataM)
        (fv : FormVal) (tags agenda : Json) (buffer : List Nat) (e : String),
      env.connectDB = Except.ok () → env.formData = Except.ok fd →
      fdGet fd ("image") = some fv → isFalsyVal fv = false →
      env.jsonParse (fdGet fd ("tags")) = Except.ok tags →
      env.jsonParse (fdGet fd ("agenda")) = Except.ok agenda →
      bytesOf fv = Except.ok buffer →
      env.upload buffer = Except.error e →
      (POST env store).response =
        ⟨500, Body.msgError ("Event Creation Failed") e⟩) ∧
    (∀ (env : PostEnv) (store : List EventInput) (fd : FormDataM)
        (fv : FormVal) (tags agenda : Json) (buffer : List Nat)
        (u : UploadResult) (e : String),
      env.connectDB = Except.ok () → env.formData = Except.ok fd →
      fdGet fd ("image") = some fv → isFalsyVal fv = false →
      env.jsonParse (fdGet fd ("tags")) = Except.ok tags →
      env.jsonParse (fdGet fd ("agenda")) = Except.ok agenda →
      bytesOf fv = Except.ok buffer →
      env.upload buffer = Except.ok u →
      env.create ⟨setKey ("image") (FormVal.str u.secure_url)
          (fromEntries fd), tags, agenda⟩ = Except.error e →
      (POST env store).response =
        ⟨500, Body.msgError ("Event Creation Failed") e⟩) := by
  refine ⟨?_, ?_, ?_, ?_, ?_, ?_, ?_⟩
  · intro env store fd fv tags agenda buffer u doc h1 h2 h3 h4 h5 h6 h7 h8 h9
    rw [POST_create_ok env store fd fv tags agenda buffer u doc
      h1 h2 h3 h4 h5 h6 h7 h8 h9]
  · intro env store fd h1 h2 h3
    rw [POST_no_image env store fd h1 h2 h3]
  · intro env store fd fv h1 h2 h3 h4
    rw [POST_falsy_image env store fd fv h1 h2 h3 h4]
  · intro env store fd fv e h1 h2 h3 h4 h5
    rw [POST_tags_err env store fd fv e h1 h2 h3 h4 h5]
  · intro env store fd fv tags e h1 h2 h3 h4 h5 h6
    rw [POST_agenda_err env store fd fv tags e h1 h2 h3 h4 h5 h6]
  · intro env store fd fv tags agenda buffer e h1 h2 h3 h4 h5 h6 h7 h8
    rw [POST_upload_err env store fd fv tags agenda buffer e
      h1 h2 h3 h4 h5 h6 h7 h8]
  · intro env store fd fv tags agenda buffer u e h1 h2 h3 h4 h5 h6 h7 h8 h9
    rw [POST_create_err env store fd fv tags agenda buffer u e
      h1 h2 h3 h4 h5 h6 h7 h8 h9]

/-- Witness for C2: all seven scenarios instantiated with concrete
environments. -/
theorem claim2_response_statuses_witness :
    (POST envAllOk []).response =
        ⟨201, Body.msgEvent ("Event Created Successfully")
          ⟨setKey ("image")
              (FormVal.str ("https://res.example/devevent/img.png"))
              (fromEntries fdOk), Json.null, Json.null⟩⟩ ∧
      (POST envNoImage []).response =
        ⟨400, Body.msg ("Image file is required")⟩ ∧
      (POST envBadTags []).response =
        ⟨500, Body.msgError ("Event Creation Failed")
          ("Unexpected token o in JSON")⟩ ∧
      (POST envUploadFail []).response =
        ⟨500, Body.msgError ("Event Creation Failed") ("network error")⟩ ∧
      (POST envCreateFail []).response =
        ⟨500, Body.msgError ("Event Creation Failed")
          ("Event validation failed")⟩ :=
  ⟨claim2_response_statuses.1 envAllOk [] fdOk (FormVal.file [7, 7, 7])
      Json.null Json.null [7, 7, 7]
      ⟨("https://res.example/devevent/img.png")⟩ _
      rfl rfl (by decide) (by decide) rfl rfl (by decide) rfl rfl,
    claim2_response_statuses.2.1 envNoImage [] fdNoImage rfl rfl (by decide),
    claim2_response_statuses.2.2.2.1 envBadTags [] fdOk (FormVal.file [7, 7, 7])
      ("Unexpected token o in JSON") rfl rfl (by decide) (by decide) rfl,
    claim2_response_statuses.2.2.2.2.2.1 envUploadFail [] fdOk
      (FormVal.file [7, 7, 7]) Json.null Json.null [7, 7, 7] ("network error")
      rfl rfl (by decide) (by decide) rfl rfl (by decide) rfl,
    claim2_response_statuses.2.2.2.2.2.2 envCreateFail [] fdOk
      (FormVal.file [7, 7, 7]) Json.null Json.null [7, 7, 7]
      ⟨("https://res.example/devevent/img.png")⟩ ("Event validation failed")
      rfl rfl (by decide) (by decide) rfl rfl (by decide) rfl rfl⟩

/-! Claim theorems for the Booking entity and action. -/

theorem bookingPreSave_skip (lookup : String → Option String)
    (b : BookingState) (h1 : b.isNew = false)
    (h2 : ("eventId") ∉ b.modifiedPaths) :
    bookingPreSave lookup b = Except.ok () := by
  unfold bookingPreSave
  rw [if_pos ⟨by simp [h1], h2⟩]

theorem bookingPreSave_missing (eventIds : List String) (b : BookingState)
    (h1 : b.isNew = true ∨ ("eventId") ∈ b.modifiedPaths)
    (h2 : b.doc.eventId ∉ eventIds) :
    bookingPreSave (findEventById eventIds) b =
      Except.error ("Event with ID " ++ b.doc.eventId ++ " does not exist") := by
  unfold bookingPreSave
  rw [if_neg (by
    intro hand
    rcases h1 with h1 | h1
    · exact hand.1 (by simp [h1])
    · exact hand.2 h1)]
  unfold findEventById
  rw [if_neg h2]

/-- C8: the Booking pre-save hook succeeds without consulting the event
store when the document is not new and eventId is unmodified; when the
document is new or eventId modified and no Event carries that id, the hook
fails with the error naming the eventId; and consequently saving a new
Booking whose eventId matches no Event yields that error and inserts
nothing. -/
theorem claim8_booking_presave_hook :
    (∀ (lookup : String → Option String) (b : BookingState),
      b.isNew = false → ("eventId") ∉ b.modifiedPaths →
      bookingPreSave lookup b = Except.ok ()) ∧
    (∀ (eventIds : List String) (b : BookingState),
      (b.isNew = true ∨ ("eventId") ∈ b.modifiedPaths) →
      b.doc.eventId ∉ eventIds →
      bookingPreSave (findEventById eventIds) b =
        Except.error ("Event with ID " ++ b.doc.eventId ++ " does not exist")) ∧
    (∀ (eventIds : List String) (b : BookingState) (store : List BookingDoc),
      b.isNew = true → b.doc.eventId ∉ eventIds →
      bookingSave eventIds b store =
        Except.error ("Event with ID " ++ b.doc.eventId ++ " does not exist")) := by
  refine ⟨bookingPreSave_skip, bookingPreSave_missing, ?_⟩
  intro eventIds b store h1 h2
  unfold bookingSave
  rw [bookingPreSave_missing eventIds b (Or.inl h1) h2]

/-- Witness for C8: a non-new booking with untouched eventId passes the
hook against an empty lookup, and a new booking referencing an absent
Event fails the hook and the save. -/
theorem claim8_booking_presave_hook_witness :
    bookingPreSave (fun _ => none)
        ⟨⟨("evt1"), ("a@b.co")⟩, false, [("email")]⟩ = Except.ok () ∧
      bookingSave [("other")]
        ⟨⟨("evt1"), ("a@b.co")⟩, true, [("eventId"), ("email")]⟩ [] =
        Except.error ("Event with ID evt1 does not exist") :=
  ⟨claim8_booking_presave_hook.1 (fun _ => none)
      ⟨⟨("evt1"), ("a@b.co")⟩, false, [("email")]⟩ rfl (by decide),
    claim8_booking_presave_hook.2.2 [("other")]
      ⟨⟨("evt1"), ("a@b.co")⟩, true, [("eventId"), ("email")]⟩ [] rfl
      (by decide)⟩

/-- C9: the action always returns a tagged success or failure result, but
on the failing input where the connection and the underlying persist both
succeed it returns the failure branch carrying the TypeError from calling
lean on the created document, not the success branch the claim requires. -/
theorem claim9_createBooking_lean_typeerror :
    (∀ (env : BookingEnv) (args : CreateBookingArgs),
      (∃ b, createBooking env args = BookingResult.success b) ∨
        (∃ e, createBooking env args = BookingResult.failure e)) ∧
      envBookingOk.bookingCreate bookingArgs0 =
        Except.ok ⟨bookingArgs0.eventId, bookingArgs0.email⟩ ∧
      createBooking envBookingOk bookingArgs0 =
        BookingResult.failure ("booking.lean is not a function") := by
  refine ⟨?_, rfl, rfl⟩
  intro env args
  unfold createBooking
  rcases env.connectDB with e | u
  · exact Or.inr ⟨e, rfl⟩
  · rcases env.bookingCreate args with e | doc
    · exact Or.inr ⟨e, rfl⟩
    · exact Or.inr ⟨("booking.lean is not a function"), rfl⟩

